import Mathlib

/-!
Verification development for the octodns-lexicon bridge
(`src/octodns_lexicon.py`).  The Python source is shallowly embedded:
pure functions become Lean functions, the identifier store becomes an
explicit state value, exceptions become `Option`/error sums, and
provider network calls become an oracle of boolean success flags.
-/

namespace OctodnsLexicon

/-! ## A model of shlex.split (posix mode, whitespace_split,
comments disabled) as used by the source for tokenizing
provider-returned content strings.

The Python tokenizer state machine: whitespace separates tokens,
single quotes delimit verbatim segments, double quotes delimit
segments in which a backslash escapes only a backslash or a double
quote, and outside quotes a backslash escapes any character.  An
unclosed quote or a dangling escape raises ValueError, modelled as
`none`. -/

/-- The single-quote character, written via its code point. -/
def squote : Char := Char.ofNat 39

/-- shlex whitespace: space, tab, carriage return, newline. -/
def isShWs (c : Char) : Bool :=
  c = ' ' || c = '\t' || c = '\r' || c = '\n'

/-- Tokenizer states: between tokens, inside a token, inside single
quotes, inside double quotes, escape outside quotes, escape inside
double quotes. -/
inductive ShState
  | ws | word | sq | dq | escA | escDq
deriving DecidableEq

/-- One pass of the shlex state machine over the character list.
`tok` is the token being accumulated, `quoted` records whether the
current token saw a quote (so that an empty quoted token is still
emitted), `acc` the tokens already emitted. -/
def shlexCore : List Char → ShState → List Char → Bool → List (List Char) →
    Option (List (List Char))
  | [], st, tok, quoted, acc =>
    match st with
    | .sq | .dq => none
    | .escA | .escDq => none
    | .ws | .word =>
      if tok ≠ [] ∨ quoted = true then some (acc ++ [tok]) else some acc
  | c :: cs, .ws, tok, quoted, acc =>
    if isShWs c then
      if tok ≠ [] ∨ quoted = true then shlexCore cs .ws [] false (acc ++ [tok])
      else shlexCore cs .ws tok quoted acc
    else if c = '\\' then shlexCore cs .escA tok quoted acc
    else if c = squote then shlexCore cs .sq tok quoted acc
    else if c = '"' then shlexCore cs .dq tok quoted acc
    else shlexCore cs .word [c] quoted acc
  | c :: cs, .word, tok, quoted, acc =>
    if isShWs c then
      if tok ≠ [] ∨ quoted = true then shlexCore cs .ws [] false (acc ++ [tok])
      else shlexCore cs .ws tok quoted acc
    else if c = squote then shlexCore cs .sq tok quoted acc
    else if c = '"' then shlexCore cs .dq tok quoted acc
    else if c = '\\' then shlexCore cs .escA tok quoted acc
    else shlexCore cs .word (tok ++ [c]) quoted acc
  | c :: cs, .sq, tok, _, acc =>
    if c = squote then shlexCore cs .word tok true acc
    else shlexCore cs .sq (tok ++ [c]) true acc
  | c :: cs, .dq, tok, _, acc =>
    if c = '"' then shlexCore cs .word tok true acc
    else if c = '\\' then shlexCore cs .escDq tok true acc
    else shlexCore cs .dq (tok ++ [c]) true acc
  | c :: cs, .escA, tok, quoted, acc =>
    shlexCore cs .word (tok ++ [c]) quoted acc
  | c :: cs, .escDq, tok, quoted, acc =>
    if c = '\\' ∨ c = '"' then shlexCore cs .dq (tok ++ [c]) quoted acc
    else shlexCore cs .dq (tok ++ ['\\', c]) quoted acc

/-- `shlex.split(s)`; `none` models the ValueError raised on an
unclosed quotation or a dangling escape character. -/
def shlexSplit (s : String) : Option (List String) :=
  (shlexCore s.data .ws [] false []).map (List.map String.mk)

example : shlexSplit "0 issue \"letsencrypt.org\"" =
    some ["0", "issue", "letsencrypt.org"] := by decide
example : shlexSplit "10 mail.example.com." = some ["10", "mail.example.com."] := by decide
example : shlexSplit "a \"b c\" d" = some ["a", "b c", "d"] := by decide
example : shlexSplit "\"unclosed" = none := by decide
example : shlexSplit "dangling\\" = none := by decide
example : shlexSplit "  " = some [] := by decide
example : shlexSplit "\"\" x" = some ["", "x"] := by decide
example : shlexSplit "a\\ b" = some ["a b"] := by decide
example : shlexSplit "\"a\\;b\"" = some ["a\\;b"] := by decide
example : shlexSplit "\"a\\\\b\"" = some ["a\\b"] := by decide
example : shlexSplit "x \"\"" = some ["x", ""] := by decide
example : shlexSplit "a\\;b" = some ["a;b"] := by decide
example : shlexSplit (String.mk ['a', squote, 'b', squote, 'c']) = some ["abc"] := by decide
example : shlexSplit (String.mk [squote, squote, ' ', 'x']) = some ["", "x"] := by decide
example : shlexSplit (String.mk [squote, 'a', ' ', 'b']) = none := by decide

/-! ## Data model

`LexRecord` mirrors the `LexiconRecord` namedtuple
`(content, ttl, rtype, name)`: the flat, provider-facing record in
which every value is a single content string. -/

structure LexRecord where
  content : String
  ttl : Nat
  rtype : String
  name : String
deriving DecidableEq

/-! ## Identifier Memory (`RememberedIds`)

The two defaultdicts are modelled as total functions with `none` / `[]`
defaults; the record key is the `repr` string the source uses, kept
abstract as a plain `String`. -/

structure RememberedIds where
  idByRecordAndValue : String → String → Option String
  allIdsForRecord : String → List String

/-- A fresh store, as built in `__init__`. -/
def emptyIds : RememberedIds :=
  ⟨fun _ _ => none, fun _ => []⟩

/-- `remember`: overwrite the per-(key, content) identifier and append
to the all-ids index. -/
def RememberedIds.remember (m : RememberedIds) (key content ident : String) :
    RememberedIds where
  idByRecordAndValue := fun k c =>
    if k = key then
      if c = content then some ident else m.idByRecordAndValue k c
    else m.idByRecordAndValue k c
  allIdsForRecord := fun k =>
    if k = key then m.allIdsForRecord k ++ [ident] else m.allIdsForRecord k

/-- `get`: lookup, with the KeyError path returning `none`. -/
def RememberedIds.get (m : RememberedIds) (key content : String) : Option String :=
  m.idByRecordAndValue key content

/-- `get_all_ids`. -/
def RememberedIds.getAllIds (m : RememberedIds) (key : String) : List String :=
  m.allIdsForRecord key

/-- `has_unique_ids`: `len(ids) == len(set(ids))`; the cardinality of a
Python set of strings is the number of distinct elements, i.e. the
length of `dedup`. -/
def RememberedIds.hasUniqueIds (m : RememberedIds) (key : String) : Bool :=
  (m.allIdsForRecord key).length == (m.allIdsForRecord key).dedup.length

/-! ## Typed Value Codec: decoding (`_data_for_*`) -/

structure CAAValue where
  flags : String
  tag : String
  value : String
deriving DecidableEq

/-- Note: `_data_for_MX` fills the dict key `priority`, which octodns
accepts as the legacy alias of the MX `preference` field read back by
`_rrset_for_MX`. -/
structure MXValue where
  preference : String
  exchange : String
deriving DecidableEq

structure SRVValue where
  priority : String
  weight : String
  port : String
  target : String
deriving DecidableEq

/-- Result dict of `_data_for_multiple` (A, AAAA, NS, TXT). -/
structure MultiData where
  ttl : Nat
  rtype : String
  values : List String
deriving DecidableEq

/-- Result dict of `_data_for_CNAME` (CNAME, ALIAS). -/
structure CNAMEData where
  ttl : Nat
  rtype : String
  value : String
deriving DecidableEq

structure CAAData where
  ttl : Nat
  rtype : String
  values : List CAAValue
deriving DecidableEq

structure MXData where
  ttl : Nat
  rtype : String
  values : List MXValue
deriving DecidableEq

structure SRVData where
  ttl : Nat
  rtype : String
  values : List SRVValue
deriving DecidableEq

/-- The character-level effect of `re.sub(';', chr(92) + ';', s)`: every
semicolon, already escaped or not, gains a preceding backslash (the
two-character replacement template is passed through literally by re). -/
def escSemisL : List Char → List Char
  | [] => []
  | c :: cs => if c = ';' then '\\' :: ';' :: escSemisL cs else c :: escSemisL cs

def escSemis (s : String) : String := ⟨escSemisL s.data⟩

/-- `_data_for_multiple`: ttl from the first record (IndexError on an
empty group modelled as `none`), each content escaped. -/
def dataForMultiple (ty : String) : List LexRecord → Option MultiData
  | [] => none
  | r0 :: rest => some ⟨r0.ttl, ty, (r0 :: rest).map (fun r => escSemis r.content)⟩

/-- `_data_for_CNAME` / `_data_for_ALIAS`: first record verbatim. -/
def dataForCNAME (ty : String) : List LexRecord → Option CNAMEData
  | [] => none
  | r :: _ => some ⟨r.ttl, ty, r.content⟩

/-- One record of the `_data_for_CAA` loop: the tuple unpacking
`flags, tag, value = shlex.split(content)` fails (ValueError) unless
exactly three tokens result. -/
def decodeCAAContent (content : String) : Option CAAValue :=
  match shlexSplit content with
  | some [flags, tag, value] => some ⟨flags, tag, value⟩
  | _ => none

/-- One record of the `_data_for_MX` loop (two tokens). -/
def decodeMXContent (content : String) : Option MXValue :=
  match shlexSplit content with
  | some [priority, exchange] => some ⟨priority, exchange⟩
  | _ => none

/-- One record of the `_data_for_SRV` loop (four tokens). -/
def decodeSRVContent (content : String) : Option SRVValue :=
  match shlexSplit content with
  | some [priority, weight, port, target] => some ⟨priority, weight, port, target⟩
  | _ => none

/-- The per-record loop shared by the CAA/MX/SRV decoders: first
failure aborts. -/
def decodeContents {α : Type} (f : String → Option α) :
    List LexRecord → Option (List α)
  | [] => some []
  | r :: rs =>
    match f r.content with
    | none => none
    | some v => (decodeContents f rs).map (fun vs => v :: vs)

def dataForCAA (ty : String) (records : List LexRecord) : Option CAAData :=
  match records with
  | [] => none
  | r0 :: rest =>
    (decodeContents decodeCAAContent (r0 :: rest)).map (fun vs => ⟨r0.ttl, ty, vs⟩)

def dataForMX (ty : String) (records : List LexRecord) : Option MXData :=
  match records with
  | [] => none
  | r0 :: rest =>
    (decodeContents decodeMXContent (r0 :: rest)).map (fun vs => ⟨r0.ttl, ty, vs⟩)

def dataForSRV (ty : String) (records : List LexRecord) : Option SRVData :=
  match records with
  | [] => none
  | r0 :: rest =>
    (decodeContents decodeSRVContent (r0 :: rest)).map (fun vs => ⟨r0.ttl, ty, vs⟩)

/-! ## Typed Value Codec: encoding (`_rrset_for_*`)

Each octodns record decomposes into one flat record per value; the
record attributes (ttl, type, fqdn) are passed as arguments. -/

def rrsetForMultiple (ttl : Nat) (rtype fqdn : String) (values : List String) :
    List LexRecord :=
  values.map (fun c => ⟨c, ttl, rtype, fqdn⟩)

def rrsetForCNAME (ttl : Nat) (rtype fqdn value : String) : List LexRecord :=
  [⟨value, ttl, rtype, fqdn⟩]

/-- Content format string of `_rrset_for_CAA`: the value token is
always double quoted. -/
def rrsetContentCAA (c : CAAValue) : String :=
  c.flags ++ " " ++ c.tag ++ " \"" ++ c.value ++ "\""

def rrsetForCAA (ttl : Nat) (rtype fqdn : String) (values : List CAAValue) :
    List LexRecord :=
  values.map (fun c => ⟨rrsetContentCAA c, ttl, rtype, fqdn⟩)

def rrsetContentMX (c : MXValue) : String :=
  c.preference ++ " " ++ c.exchange

def rrsetForMX (ttl : Nat) (rtype fqdn : String) (values : List MXValue) :
    List LexRecord :=
  values.map (fun c => ⟨rrsetContentMX c, ttl, rtype, fqdn⟩)

def rrsetContentSRV (c : SRVValue) : String :=
  c.priority ++ " " ++ c.weight ++ " " ++ c.port ++ " " ++ c.target

def rrsetForSRV (ttl : Nat) (rtype fqdn : String) (values : List SRVValue) :
    List LexRecord :=
  values.map (fun c => ⟨rrsetContentSRV c, ttl, rtype, fqdn⟩)

/-! ## Reconciliation Engine (the per-change body of `_apply`)

Operations are emitted in the order the source issues the provider
calls: the paired loop over `min(|additions|, |deletions|)`, then the
leftover bare creates, then the leftover bare deletes. -/

inductive Op
  | create (r : LexRecord)
  | update (ident : String) (r : LexRecord)
  | delete (ident : Option String) (r : LexRecord)
deriving DecidableEq

/-- Python truthiness of the identifier returned by `get`: `None` and
the empty string are falsy. -/
def truthyId : Option String → Bool
  | none => false
  | some s => !(s == "")

/-- Python string comparison: lexicographic on code points, a strict
prefix comparing less. -/
def charListLt : List Char → List Char → Bool
  | [], [] => false
  | [], _ :: _ => true
  | _ :: _, [] => false
  | a :: as, b :: bs =>
    if a.val < b.val then true
    else if b.val < a.val then false
    else charListLt as bs

def strLt (a b : String) : Bool := charListLt a.data b.data

/-- Python tuple comparison of `LexiconRecord` namedtuples, in field
order `(content, ttl, rtype, name)`; `sorted` uses this order. -/
def lexRecLt (a b : LexRecord) : Bool :=
  if a.content = b.content then
    if a.ttl = b.ttl then
      if a.rtype = b.rtype then strLt a.name b.name
      else strLt a.rtype b.rtype
    else decide (a.ttl < b.ttl)
  else strLt a.content b.content

def insertSorted (a : LexRecord) : List LexRecord → List LexRecord
  | [] => [a]
  | b :: bs => if lexRecLt b a then b :: insertSorted a bs else a :: b :: bs

/-- `sorted(...)` over a duplicate-free collection: any correct sort
gives the unique ascending sequence. -/
def sortRecs (l : List LexRecord) : List LexRecord := l.foldr insertSorted []

/-- The update-vs-recreate guard of the paired loop:
`if identifier and self.remembered_ids.has_unique_ids(...)`. -/
def updateEligible (m : RememberedIds) (key content : String) : Bool :=
  truthyId (m.get key content) && m.hasUniqueIds key

/-- The paired portion of the loop: for each (addition, deletion) pair
either a single update (identifier truthy and ids unique) or a create
followed by a delete issued without identifier. -/
def pairedOps (m : RememberedIds) (key : String) :
    List (LexRecord × LexRecord) → List Op
  | [] => []
  | (n, o) :: rest =>
    (if updateEligible m key o.content then
      [Op.update ((m.get key o.content).getD "") n]
    else
      [Op.create n, Op.delete none o]) ++ pairedOps m key rest

/-- The operation sequence `_apply` emits for one change, starting from
the already-encoded flat value collections.  `key` stands for
`repr(change.existing)`, the Identifier Memory key of the old record.
Set difference is by full flat-record equality; both differences are
sorted for deterministic pairing. -/
def applyChange (m : RememberedIds) (key : String)
    (oldVars newVars : List LexRecord) : List Op :=
  let additions := sortRecs ((newVars.filter (fun r => !(decide (r ∈ oldVars)))).dedup)
  let deletions := sortRecs ((oldVars.filter (fun r => !(decide (r ∈ newVars)))).dedup)
  pairedOps m key (additions.zip deletions)
    ++ (additions.drop deletions.length).map Op.create
    ++ (deletions.drop additions.length).map
        (fun o => Op.delete (m.get key o.content) o)

/-! ## Harmonization (populate, name-bearing types) -/

/-- The inner content transformation of `populate` for CNAME/MX/NS:
leave a trailing-dot content alone; otherwise isolate the domain token
(last shlex token) and either append a dot (token has an embedded dot)
or append the dot-terminated zone name (bare label).  `none` models the
IndexError on empty content / empty token list and the shlex
ValueError. -/
def harmonize (zoneName content : String) : Option String :=
  match content.data.getLast? with
  | none => none
  | some last =>
    if last = '.' then some content
    else
      match shlexSplit content with
      | none => none
      | some toks =>
        match toks.getLast? with
        | none => none
        | some domainPart =>
          if domainPart.data.contains '.' then some (content ++ ".")
          else some (content ++ "." ++ zoneName)

/-- The harmonization step applied to one listed flat record: only the
name-bearing types CNAME, MX, NS are touched. -/
def harmonizeLexRecord (zoneName : String) (r : LexRecord) : Option LexRecord :=
  if r.rtype = "CNAME" ∨ r.rtype = "MX" ∨ r.rtype = "NS" then
    (harmonize zoneName r.content).map (fun c => { r with content := c })
  else some r

/-! ## Apply-time execution against the provider client

The provider client is an oracle of success flags for the three
mutating calls; a falsy flag raises the corresponding typed error.
`RecordCreateError` and `RecordDeleteError` are constructed with the
offending record only (identifier left at its `None` default);
`RecordUpdateError` also carries the identifier used. -/

structure Provider where
  createOK : LexRecord → Bool
  updateOK : String → LexRecord → Bool
  deleteOK : Option String → LexRecord → Bool

inductive ApplyError
  | createError (r : LexRecord)
  | updateError (r : LexRecord) (ident : String)
  | deleteError (r : LexRecord)
deriving DecidableEq

/-- Issue one provider call; `some e` is the raised error. -/
def execOp (p : Provider) : Op → Option ApplyError
  | .create r => if p.createOK r then none else some (.createError r)
  | .update ident r => if p.updateOK ident r then none else some (.updateError r ident)
  | .delete ident r => if p.deleteOK ident r then none else some (.deleteError r)

/-- Execute the emitted operations in order, stopping at the first
failure.  Returns the operations actually performed (never rolled
back) and the error, if any, that propagated. -/
def execOps (p : Provider) : List Op → List Op × Option ApplyError
  | [] => ([], none)
  | op :: ops =>
    match execOp p op with
    | some e => ([], some e)
    | none =>
      let rest := execOps p ops
      (op :: rest.1, rest.2)

/-! ## Tokenizer lemmas

`plainChar` delimits the characters that pass through the tokenizer
untouched (no whitespace, quotes or escapes); `dqSafeChar` those that
pass through a double-quoted segment untouched. -/

def plainChar (c : Char) : Prop :=
  isShWs c = false ∧ c ≠ squote ∧ c ≠ '"' ∧ c ≠ '\\'

instance (c : Char) : Decidable (plainChar c) := by
  unfold plainChar; infer_instance

/-- A usable token for an unquoted field: nonempty and all plain. -/
def plainTok (s : String) : Prop :=
  s.data ≠ [] ∧ ∀ c ∈ s.data, plainChar c

instance (s : String) : Decidable (plainTok s) := by
  unfold plainTok; infer_instance

def dqSafeChar (c : Char) : Prop := c ≠ '"' ∧ c ≠ '\\'

/-- A value safe inside the double quotes of the CAA encoding. -/
def dqSafe (s : String) : Prop := ∀ c ∈ s.data, dqSafeChar c

instance (s : String) : Decidable (dqSafe s) := by
  unfold dqSafe dqSafeChar; infer_instance

lemma shlexCore_word_plain (l cs tok : List Char) (quoted : Bool)
    (acc : List (List Char)) (h : ∀ c ∈ l, plainChar c) :
    shlexCore (l ++ cs) .word tok quoted acc =
      shlexCore cs .word (tok ++ l) quoted acc := by
  induction l generalizing tok with
  | nil => simp
  | cons c l ih =>
    obtain ⟨h1, h2, h3, h4⟩ := h c (List.mem_cons_self _ _)
    rw [List.cons_append, shlexCore]
    simp only [h1, h2, h3, h4, Bool.false_eq_true, if_false]
    rw [ih (tok ++ [c]) (fun c hc => h c (List.mem_cons_of_mem _ hc))]
    simp

lemma shlexCore_tok_space (t cs : List Char) (acc : List (List Char))
    (hne : t ≠ []) (h : ∀ c ∈ t, plainChar c) :
    shlexCore (t ++ ' ' :: cs) .ws [] false acc =
      shlexCore cs .ws [] false (acc ++ [t]) := by
  obtain ⟨c, t', rfl⟩ := List.exists_cons_of_ne_nil hne
  obtain ⟨h1, h2, h3, h4⟩ := h c (List.mem_cons_self _ _)
  rw [List.cons_append, shlexCore]
  simp only [h1, h2, h3, h4, Bool.false_eq_true, if_false]
  rw [shlexCore_word_plain t' (' ' :: cs) [c] false acc
    (fun c hc => h c (List.mem_cons_of_mem _ hc))]
  rw [shlexCore]
  simp [isShWs]

lemma shlexCore_tok_eof (t : List Char) (acc : List (List Char))
    (hne : t ≠ []) (h : ∀ c ∈ t, plainChar c) :
    shlexCore t .ws [] false acc = some (acc ++ [t]) := by
  obtain ⟨c, t', rfl⟩ := List.exists_cons_of_ne_nil hne
  obtain ⟨h1, h2, h3, h4⟩ := h c (List.mem_cons_self _ _)
  rw [shlexCore]
  simp only [h1, h2, h3, h4, Bool.false_eq_true, if_false]
  have := shlexCore_word_plain t' [] [c] false acc
    (fun c hc => h c (List.mem_cons_of_mem _ hc))
  rw [List.append_nil] at this
  rw [this, shlexCore]
  simp

lemma shlexCore_dq_consume (l cs tok : List Char) (q : Bool)
    (acc : List (List Char)) (h : ∀ c ∈ l, dqSafeChar c) :
    shlexCore (l ++ '"' :: cs) .dq tok q acc =
      shlexCore cs .word (tok ++ l) true acc := by
  induction l generalizing tok q with
  | nil => rw [List.nil_append, shlexCore]; simp
  | cons c l ih =>
    obtain ⟨h1, h2⟩ := h c (List.mem_cons_self _ _)
    rw [List.cons_append, shlexCore]
    simp only [h1, h2, if_false]
    rw [ih (tok ++ [c]) true (fun c hc => h c (List.mem_cons_of_mem _ hc))]
    simp

lemma shlexCore_quoted_eof (v : List Char) (acc : List (List Char))
    (h : ∀ c ∈ v, dqSafeChar c) :
    shlexCore ('"' :: (v ++ ['"'])) .ws [] false acc = some (acc ++ [v]) := by
  have e1 : isShWs '"' = false := by decide
  have e2 : ('"' : Char) ≠ '\\' := by decide
  have e3 : ('"' : Char) ≠ squote := by decide
  rw [shlexCore]
  simp only [e1, e2, e3, Bool.false_eq_true, if_false, if_pos rfl]
  rw [show (v ++ ['"'] : List Char) = v ++ '"' :: [] from rfl,
    shlexCore_dq_consume v [] [] false acc h, shlexCore]
  simp

lemma string_mk_data (s : String) : String.mk s.data = s := rfl

lemma shlexSplit_two_plain (p e : String) (hp : plainTok p) (he : plainTok e) :
    shlexSplit (p ++ " " ++ e) = some [p, e] := by
  have hsp : (" " : String).data = [' '] := rfl
  have hd : (p ++ " " ++ e).data = p.data ++ ' ' :: e.data := by
    simp [String.data_append, hsp]
  unfold shlexSplit
  rw [hd, shlexCore_tok_space p.data e.data [] hp.1 hp.2,
    shlexCore_tok_eof e.data _ he.1 he.2]
  simp [string_mk_data]

lemma shlexSplit_four_plain (a b c d : String) (ha : plainTok a)
    (hb : plainTok b) (hc : plainTok c) (hd : plainTok d) :
    shlexSplit (a ++ " " ++ b ++ " " ++ c ++ " " ++ d) = some [a, b, c, d] := by
  have hsp : (" " : String).data = [' '] := rfl
  have hdata : (a ++ " " ++ b ++ " " ++ c ++ " " ++ d).data =
      a.data ++ ' ' :: (b.data ++ ' ' :: (c.data ++ ' ' :: d.data)) := by
    simp [String.data_append, hsp]
  unfold shlexSplit
  rw [hdata, shlexCore_tok_space a.data _ [] ha.1 ha.2,
    shlexCore_tok_space b.data _ _ hb.1 hb.2,
    shlexCore_tok_space c.data _ _ hc.1 hc.2,
    shlexCore_tok_eof d.data _ hd.1 hd.2]
  simp [string_mk_data]

lemma shlexSplit_caa (f t v : String) (hf : plainTok f) (ht : plainTok t)
    (hv : dqSafe v) :
    shlexSplit (f ++ " " ++ t ++ " \"" ++ v ++ "\"") = some [f, t, v] := by
  have hsp : (" " : String).data = [' '] := rfl
  have hsq : (" \"" : String).data = [' ', '"'] := rfl
  have hq : ("\"" : String).data = ['"'] := rfl
  have hdata : (f ++ " " ++ t ++ " \"" ++ v ++ "\"").data =
      f.data ++ ' ' :: (t.data ++ ' ' :: ('"' :: (v.data ++ ['"']))) := by
    simp [String.data_append, hsp, hsq, hq]
  unfold shlexSplit
  rw [hdata, shlexCore_tok_space f.data _ [] hf.1 hf.2,
    shlexCore_tok_space t.data _ _ ht.1 ht.2,
    shlexCore_quoted_eof v.data _ hv]
  simp [string_mk_data]

/-! ## Codec and memory lemmas -/

/-- The content tokenizes into exactly `k` shell words. -/
def tokenizesInto (content : String) (k : Nat) : Prop :=
  ∃ toks, shlexSplit content = some toks ∧ toks.length = k

lemma list_length_eq_four {α : Type} {l : List α} :
    l.length = 4 ↔ ∃ a b c d, l = [a, b, c, d] := by
  constructor
  · intro h
    cases l with
    | nil => simp at h
    | cons a l1 =>
      cases l1 with
      | nil => simp at h
      | cons b l2 =>
        cases l2 with
        | nil => simp at h
        | cons c l3 =>
          cases l3 with
          | nil => simp at h
          | cons d l4 =>
            cases l4 with
            | nil => exact ⟨a, b, c, d, rfl⟩
            | cons e l5 => simp [List.length_cons] at h
  · rintro ⟨a, b, c, d, rfl⟩
    rfl

lemma decodeCAAContent_isSome (content : String) :
    (decodeCAAContent content).isSome = true ↔ tokenizesInto content 3 := by
  unfold decodeCAAContent tokenizesInto
  constructor
  · intro h
    split at h
    next f t v heq => exact ⟨[f, t, v], heq, rfl⟩
    next => simp at h
  · rintro ⟨toks, heq, hlen⟩
    obtain ⟨a, b, c, rfl⟩ := List.length_eq_three.mp hlen
    rw [heq]
    rfl

lemma decodeMXContent_isSome (content : String) :
    (decodeMXContent content).isSome = true ↔ tokenizesInto content 2 := by
  unfold decodeMXContent tokenizesInto
  constructor
  · intro h
    split at h
    next p e heq => exact ⟨[p, e], heq, rfl⟩
    next => simp at h
  · rintro ⟨toks, heq, hlen⟩
    obtain ⟨a, b, rfl⟩ := List.length_eq_two.mp hlen
    rw [heq]
    rfl

lemma decodeSRVContent_isSome (content : String) :
    (decodeSRVContent content).isSome = true ↔ tokenizesInto content 4 := by
  unfold decodeSRVContent tokenizesInto
  constructor
  · intro h
    split at h
    next p w po t heq => exact ⟨[p, w, po, t], heq, rfl⟩
    next => simp at h
  · rintro ⟨toks, heq, hlen⟩
    obtain ⟨a, b, c, d, rfl⟩ := list_length_eq_four.mp hlen
    rw [heq]
    rfl

lemma decodeContents_isSome {α : Type} (f : String → Option α)
    (rs : List LexRecord) :
    (decodeContents f rs).isSome = true ↔ ∀ r ∈ rs, (f r.content).isSome = true := by
  induction rs with
  | nil => simp [decodeContents]
  | cons r rs ih =>
    rw [decodeContents]
    cases hf : f r.content with
    | none => simp [hf]
    | some v => simp [hf, Option.isSome_map', ih]

lemma hasUniqueIds_iff (m : RememberedIds) (key : String) :
    m.hasUniqueIds key = true ↔ (m.allIdsForRecord key).Nodup := by
  unfold RememberedIds.hasUniqueIds
  rw [beq_iff_eq]
  constructor
  · intro h
    have heq : (m.allIdsForRecord key).dedup = m.allIdsForRecord key :=
      (List.dedup_sublist _).eq_of_length h.symm
    rw [← heq]
    exact List.nodup_dedup _
  · intro h
    rw [List.dedup_eq_self.mpr h]

lemma escSemisL_id (l : List Char) (h : ∀ c ∈ l, c ≠ ';') : escSemisL l = l := by
  induction l with
  | nil => rfl
  | cons c cs ih =>
    rw [escSemisL, if_neg (h c (List.mem_cons_self _ _)),
      ih (fun c hc => h c (List.mem_cons_of_mem _ hc))]

lemma escSemis_id (s : String) (h : ∀ c ∈ s.data, c ≠ ';') : escSemis s = s := by
  unfold escSemis
  rw [escSemisL_id s.data h]

/-! ## Reconciliation lemmas -/

/-- For a change with exactly one (distinct) old and new flat value the
engine reduces to the guard of the paired loop. -/
lemma applyChange_singletons (m : RememberedIds) (key : String)
    (o n : LexRecord) (hne : o ≠ n) :
    applyChange m key [o] [n] =
      if updateEligible m key o.content then
        [Op.update ((m.get key o.content).getD "") n]
      else [Op.create n, Op.delete none o] := by
  have hno : ¬ (n ∈ ([o] : List LexRecord)) := by
    simp only [List.mem_singleton]
    exact fun h => hne h.symm
  have hon : ¬ (o ∈ ([n] : List LexRecord)) := by
    simp only [List.mem_singleton]
    exact hne
  unfold applyChange
  simp only [List.filter, hno, hon, decide_False, Bool.not_false,
    decide_True, List.dedup_nil, decide_eq_false hno, decide_eq_false hon]
  simp [sortRecs, insertSorted, pairedOps, List.dedup_cons_of_not_mem]

/-! ## Concrete fixtures used by witnesses and counterexamples -/

def recA : LexRecord := ⟨"old-content", 300, "A", "www.example.com."⟩

def recB : LexRecord := ⟨"new-content", 300, "A", "www.example.com."⟩

/-- A store that remembered the empty string as the identifier of the
old value: `get` returns an identifier, and it is the only one, yet it
is falsy in Python. -/
def memEmptyIdent : RememberedIds := emptyIds.remember "k" "old-content" ""

/-- A store with a proper unique identifier for the old value. -/
def memGood : RememberedIds := emptyIds.remember "k" "old-content" "id-1"

/-- A store in which two values of the record share one identifier, so
`has_unique_ids` is false although `get` knows an identifier. -/
def memDup : RememberedIds :=
  (emptyIds.remember "k" "old-content" "x").remember "k" "other-content" "x"

/-! ## Claims C4, C5, C8, C9: the Reconciliation Engine -/

/-- C4 counterexample: the claim fails when the remembered identifier
is the empty string.  Identifier Memory holds an identifier (`get`
returns `some ""`) for the old value under the old key, and
`has_unique_ids` is true, yet the engine emits create+delete and no
update, because the Python guard `if identifier and ...` treats the
empty string as absent. -/
theorem c4_counterexample :
    memEmptyIdent.get "k" recA.content = some "" ∧
    memEmptyIdent.hasUniqueIds "k" = true ∧
    recA ≠ recB ∧
    applyChange memEmptyIdent "k" [recA] [recB] =
      [Op.create recB, Op.delete none recA] := by decide

/-- C4 (amended): for a change with one old and one (different) new
flat value, when Identifier Memory holds a NONEMPTY identifier for the
old value under the old key and `has_unique_ids` is true there, the
engine emits exactly one update carrying that identifier and the new
flat record, and no create and no delete. -/
theorem c4_update_preference (m : RememberedIds) (key : String)
    (o n : LexRecord) (ident : String) (hne : o ≠ n)
    (hget : m.get key o.content = some ident) (hid : ident ≠ "")
    (huniq : m.hasUniqueIds key = true) :
    applyChange m key [o] [n] = [Op.update ident n] := by
  rw [applyChange_singletons m key o n hne]
  have ht : truthyId (m.get key o.content) = true := by
    rw [hget]
    simp [truthyId, hid]
  have hel : updateEligible m key o.content = true := by
    unfold updateEligible
    rw [ht, huniq]
    rfl
  rw [if_pos hel, hget]
  rfl

theorem c4_update_preference_witness :
    recA ≠ recB ∧ memGood.get "k" recA.content = some "id-1" ∧
    ("id-1" : String) ≠ "" ∧ memGood.hasUniqueIds "k" = true ∧
    applyChange memGood "k" [recA] [recB] = [Op.update "id-1" recB] :=
  ⟨by decide, by decide, by decide, by decide,
    c4_update_preference memGood "k" recA recB "id-1" (by decide) (by decide)
      (by decide) (by decide)⟩

/-- C5: with one old and one (different) new flat value, when no
identifier is known for the old value or `has_unique_ids` is false for
the old key, the engine emits exactly one create (of the new value)
followed by exactly one delete (of the old value), in that order, and
no update. -/
theorem c5_create_delete_fallback (m : RememberedIds) (key : String)
    (o n : LexRecord) (hne : o ≠ n)
    (h : m.get key o.content = none ∨ m.hasUniqueIds key = false) :
    applyChange m key [o] [n] = [Op.create n, Op.delete none o] := by
  rw [applyChange_singletons m key o n hne]
  have hel : updateEligible m key o.content = false := by
    rcases h with h | h
    · simp [updateEligible, truthyId, h]
    · simp [updateEligible, h]
  rw [hel]
  rfl

theorem c5_create_delete_fallback_witness :
    recA ≠ recB ∧ emptyIds.get "k" recA.content = none ∧
    applyChange emptyIds "k" [recA] [recB] =
      [Op.create recB, Op.delete none recA] :=
  ⟨by decide, rfl,
    c5_create_delete_fallback emptyIds "k" recA recB (by decide) (Or.inl rfl)⟩

/-- C8: when the old and new flat value collections are equal as sets
(same members), the engine emits no operation at all. -/
theorem c8_reconciliation_idempotent (m : RememberedIds) (key : String)
    (oldVars newVars : List LexRecord)
    (h : ∀ r, r ∈ oldVars ↔ r ∈ newVars) :
    applyChange m key oldVars newVars = [] := by
  unfold applyChange
  have ha : newVars.filter (fun r => !(decide (r ∈ oldVars))) = [] := by
    rw [List.filter_eq_nil_iff]
    intro r hr
    simp [(h r).mpr hr]
  have hd : oldVars.filter (fun r => !(decide (r ∈ newVars))) = [] := by
    rw [List.filter_eq_nil_iff]
    intro r hr
    simp [(h r).mp hr]
  rw [ha, hd]
  rfl

theorem c8_reconciliation_idempotent_witness :
    applyChange memGood "k" [recA] [recA] = [] :=
  c8_reconciliation_idempotent memGood "k" [recA] [recA] (fun _ => Iff.rfl)

/-- C9: every delete emitted by the paired create-then-delete fallback
carries no identifier, whatever the store knows; a bare (unpaired)
delete is the only delete that resolves and passes the identifier
looked up in Identifier Memory. -/
theorem c9_paired_delete_has_no_identifier :
    (∀ (m : RememberedIds) (key : String)
      (pairs : List (LexRecord × LexRecord)) (ident : Option String)
      (r : LexRecord), Op.delete ident r ∈ pairedOps m key pairs →
        ident = none) ∧
    (∀ (m : RememberedIds) (key : String) (o : LexRecord),
      applyChange m key [o] [] = [Op.delete (m.get key o.content) o]) := by
  constructor
  · intro m key pairs
    induction pairs with
    | nil =>
      intro ident r h
      simp [pairedOps] at h
    | cons p rest ih =>
      intro ident r h
      obtain ⟨np, op⟩ := p
      rw [pairedOps, List.mem_append] at h
      rcases h with h | h
      · split at h
        · exact Op.noConfusion (List.mem_singleton.mp h)
        · rcases List.mem_cons.mp h with h | h
          · exact Op.noConfusion h
          · injection List.mem_singleton.mp h
      · exact ih ident r h
  · intro m key o
    rfl

theorem c9_paired_delete_has_no_identifier_witness :
    (Op.delete none recA ∈ pairedOps memDup "k" [(recB, recA)]) ∧
    (none : Option String) = none ∧
    applyChange memDup "k" [recA] [] =
      [Op.delete (memDup.get "k" recA.content) recA] :=
  ⟨by decide,
    c9_paired_delete_has_no_identifier.1 memDup "k" [(recB, recA)] none recA
      (by decide),
    c9_paired_delete_has_no_identifier.2 memDup "k" recA⟩

/-! ## Claims C2, C10: Identifier Memory -/

/-- C2 counterexample: remembering the same (key, content, identifier)
triple twice is observably different from remembering it once — the
all-ids index gains a duplicate, flipping `has_unique_ids` from true to
false. -/
theorem c2_counterexample :
    ((emptyIds.remember "k" "c" "i").remember "k" "c" "i").hasUniqueIds "k" = false ∧
    (emptyIds.remember "k" "c" "i").hasUniqueIds "k" = true ∧
    ((emptyIds.remember "k" "c" "i").remember "k" "c" "i").getAllIds "k" = ["i", "i"] ∧
    (emptyIds.remember "k" "c" "i").getAllIds "k" = ["i"] := by decide

/-- C2 (amended): `remember` is idempotent as observed through `get`
(the per-(key, content) map is overwritten with the same identifier),
but every call appends to the all-ids index, so a second call with the
same triple extends `get_all_ids` by a duplicate and makes
`has_unique_ids` false for that key. -/
theorem c2_remember_not_idempotent (m : RememberedIds)
    (key content ident : String) :
    (∀ k c, ((m.remember key content ident).remember key content ident).get k c =
      (m.remember key content ident).get k c) ∧
    ((m.remember key content ident).remember key content ident).getAllIds key =
      (m.remember key content ident).getAllIds key ++ [ident] ∧
    ((m.remember key content ident).remember key content ident).hasUniqueIds key =
      false := by
  refine ⟨?_, ?_, ?_⟩
  · intro k c
    unfold RememberedIds.get RememberedIds.remember
    by_cases hk : k = key <;> by_cases hc : c = content <;> simp [hk, hc]
  · unfold RememberedIds.getAllIds RememberedIds.remember
    simp
  · have hlist : ((m.remember key content ident).remember key content
        ident).allIdsForRecord key =
        (m.allIdsForRecord key ++ [ident]) ++ [ident] := by
      unfold RememberedIds.remember
      simp
    have hnd : ¬ (((m.remember key content ident).remember key content
        ident).allIdsForRecord key).Nodup := by
      rw [hlist]
      intro hnd
      exact List.disjoint_of_nodup_append hnd
        (show ident ∈ m.allIdsForRecord key ++ [ident] by simp)
        (show ident ∈ [ident] by simp)
    rw [Bool.eq_false_iff]
    intro hb
    exact hnd ((hasUniqueIds_iff _ _).mp hb)

/-- C10: a key for which no identifier was ever remembered has an empty
all-ids list, which counts as duplicate-free, so `has_unique_ids` is
true; the update-eligibility guard then reduces to whether `get`
returns a (truthy) identifier. -/
theorem c10_empty_key_unique (m : RememberedIds) (key : String)
    (h : m.getAllIds key = []) :
    m.hasUniqueIds key = true ∧
    ∀ content, updateEligible m key content = truthyId (m.get key content) := by
  have h' : m.allIdsForRecord key = [] := h
  constructor
  · unfold RememberedIds.hasUniqueIds
    rw [h']
    rfl
  · intro content
    have hu : m.hasUniqueIds key = true := by
      unfold RememberedIds.hasUniqueIds
      rw [h']
      rfl
    unfold updateEligible
    rw [hu, Bool.and_true]

theorem c10_empty_key_unique_witness :
    emptyIds.getAllIds "k" = [] ∧
    (emptyIds.hasUniqueIds "k" = true ∧
      ∀ content, updateEligible emptyIds "k" content =
        truthyId (emptyIds.get "k" content)) :=
  ⟨rfl, c10_empty_key_unique emptyIds "k" rfl⟩

/-! ## Claim C1: CAA/MX/SRV decode failure -/

/-- C1: for a nonempty group of provider records, the CAA decoder
succeeds exactly when every content string shell-word-tokenizes into
exactly three tokens, the MX decoder exactly when every content
tokenizes into two, and the SRV decoder exactly when every content
tokenizes into four; any mismatch (including an untokenizable string)
makes the decode fail, modelling the raised error. -/
theorem c1_decode_fails_iff_token_count (ty : String)
    (records : List LexRecord) :
    ((dataForCAA ty records).isSome = true ↔
      records ≠ [] ∧ ∀ r ∈ records, tokenizesInto r.content 3) ∧
    ((dataForMX ty records).isSome = true ↔
      records ≠ [] ∧ ∀ r ∈ records, tokenizesInto r.content 2) ∧
    ((dataForSRV ty records).isSome = true ↔
      records ≠ [] ∧ ∀ r ∈ records, tokenizesInto r.content 4) := by
  refine ⟨?_, ?_, ?_⟩
  · cases records with
    | nil => simp [dataForCAA]
    | cons r0 rest =>
      simp [dataForCAA, Option.isSome_map', decodeContents_isSome,
        decodeCAAContent_isSome]
  · cases records with
    | nil => simp [dataForMX]
    | cons r0 rest =>
      simp [dataForMX, Option.isSome_map', decodeContents_isSome,
        decodeMXContent_isSome]
  · cases records with
    | nil => simp [dataForSRV]
    | cons r0 rest =>
      simp [dataForSRV, Option.isSome_map', decodeContents_isSome,
        decodeSRVContent_isSome]

/-! ## Claim C3: codec round trip -/

/-- Formalization of the claim guard for TXT-like values, from the
spec wording: the semicolon is the reserved delimiter and a backslash
escapes the following character; true when some semicolon is not
preceded by an escaping backslash. -/
def hasUnescapedSemicolon : List Char → Bool
  | [] => false
  | '\\' :: _ :: rest => hasUnescapedSemicolon rest
  | ';' :: _ => true
  | _ :: rest => hasUnescapedSemicolon rest

/-- C3 counterexample: the TXT-like value with all semicolons escaped
does not round-trip — the decoder re-escapes the already-escaped
semicolon, so the decoded value differs from the encoded one. -/
theorem c3_counterexample :
    hasUnescapedSemicolon ("a\\;b" : String).data = false ∧
    dataForMultiple "TXT" (rrsetForMultiple 300 "TXT" "txt.example.com." ["a\\;b"]) =
      some ⟨300, "TXT", ["a\\\\;b"]⟩ ∧
    ("a\\\\;b" : String) ≠ "a\\;b" := by decide

/-- C3 (amended): for every supported record type,
`decode(type, [encode(type, v)]) = {v}` holds for a value whose fields
contain no reserved characters at all: for the simple multi-value
types (A, AAAA, NS, TXT) the value must contain no semicolon, escaped
or not; CNAME/ALIAS values always round-trip; for CAA the flags and
tag fields must be nonempty and free of whitespace, quotes and
backslashes, and the value field free of double quotes and
backslashes; for MX and SRV every field must be nonempty and free of
whitespace, quotes and backslashes. -/
theorem c3_round_trip (ttl : Nat) (ty fqdn : String) :
    (∀ v : String, (∀ c ∈ v.data, c ≠ ';') →
      dataForMultiple ty (rrsetForMultiple ttl ty fqdn [v]) =
        some ⟨ttl, ty, [v]⟩) ∧
    (∀ v : String,
      dataForCNAME ty (rrsetForCNAME ttl ty fqdn v) = some ⟨ttl, ty, v⟩) ∧
    (∀ c : CAAValue, plainTok c.flags → plainTok c.tag → dqSafe c.value →
      dataForCAA ty (rrsetForCAA ttl ty fqdn [c]) = some ⟨ttl, ty, [c]⟩) ∧
    (∀ c : MXValue, plainTok c.preference → plainTok c.exchange →
      dataForMX ty (rrsetForMX ttl ty fqdn [c]) = some ⟨ttl, ty, [c]⟩) ∧
    (∀ c : SRVValue, plainTok c.priority → plainTok c.weight →
      plainTok c.port → plainTok c.target →
      dataForSRV ty (rrsetForSRV ttl ty fqdn [c]) = some ⟨ttl, ty, [c]⟩) := by
  refine ⟨?_, ?_, ?_, ?_, ?_⟩
  · intro v hv
    simp [dataForMultiple, rrsetForMultiple, escSemis_id v hv]
  · intro v
    rfl
  · intro c hf ht hv
    have hd : decodeCAAContent (rrsetContentCAA c) = some c := by
      unfold decodeCAAContent rrsetContentCAA
      rw [shlexSplit_caa c.flags c.tag c.value hf ht hv]
    simp [dataForCAA, rrsetForCAA, decodeContents, hd]
  · intro c hp he
    have hd : decodeMXContent (rrsetContentMX c) = some c := by
      unfold decodeMXContent rrsetContentMX
      rw [shlexSplit_two_plain c.preference c.exchange hp he]
    simp [dataForMX, rrsetForMX, decodeContents, hd]
  · intro c h1 h2 h3 h4
    have hd : decodeSRVContent (rrsetContentSRV c) = some c := by
      unfold decodeSRVContent rrsetContentSRV
      rw [shlexSplit_four_plain c.priority c.weight c.port c.target h1 h2 h3 h4]
    simp [dataForSRV, rrsetForSRV, decodeContents, hd]

theorem c3_round_trip_witness :
    dataForMultiple "TXT" (rrsetForMultiple 300 "TXT" "t.example.com." ["hello"]) =
      some ⟨300, "TXT", ["hello"]⟩ ∧
    dataForCNAME "CNAME" (rrsetForCNAME 3600 "CNAME" "c.example.com."
      "target.example.com.") = some ⟨3600, "CNAME", "target.example.com."⟩ ∧
    dataForCAA "CAA" (rrsetForCAA 300 "CAA" "x.example.com."
      [⟨"0", "issue", "letsencrypt.org"⟩]) =
      some ⟨300, "CAA", [⟨"0", "issue", "letsencrypt.org"⟩]⟩ ∧
    dataForMX "MX" (rrsetForMX 300 "MX" "m.example.com."
      [⟨"10", "mail.example.com."⟩]) =
      some ⟨300, "MX", [⟨"10", "mail.example.com."⟩]⟩ ∧
    dataForSRV "SRV" (rrsetForSRV 600 "SRV" "s.example.com."
      [⟨"10", "20", "5060", "sip.example.com."⟩]) =
      some ⟨600, "SRV", [⟨"10", "20", "5060", "sip.example.com."⟩]⟩ :=
  ⟨(c3_round_trip 300 "TXT" "t.example.com.").1 "hello" (by decide),
   (c3_round_trip 3600 "CNAME" "c.example.com.").2.1 "target.example.com.",
   (c3_round_trip 300 "CAA" "x.example.com.").2.2.1
     ⟨"0", "issue", "letsencrypt.org"⟩ (by decide) (by decide) (by decide),
   (c3_round_trip 300 "MX" "m.example.com.").2.2.2.1
     ⟨"10", "mail.example.com."⟩ (by decide) (by decide),
   (c3_round_trip 600 "SRV" "s.example.com.").2.2.2.2
     ⟨"10", "20", "5060", "sip.example.com."⟩ (by decide) (by decide)
     (by decide) (by decide)⟩

/-! ## Claim C6: harmonization of name-bearing types -/

/-- C6: for a record of a name-bearing type (CNAME, MX, NS) during
population, content already ending in a dot is left unchanged; content
without trailing dot whose isolated domain token (the last shell word)
contains a dot gets a single dot appended to the whole content; and
content whose domain token is a bare label gets the dot-terminated
zone name appended. -/
theorem c6_harmonization (zoneName : String) (r : LexRecord)
    (hr : r.rtype = "CNAME" ∨ r.rtype = "MX" ∨ r.rtype = "NS")
    (last : Char) (toks : List String) (dp : String) :
    (r.content.data.getLast? = some '.' →
      harmonizeLexRecord zoneName r = some r) ∧
    (r.content.data.getLast? = some last → last ≠ '.' →
      shlexSplit r.content = some toks → toks.getLast? = some dp →
      ((dp.data.contains '.' = true →
        harmonizeLexRecord zoneName r =
          some { r with content := r.content ++ "." }) ∧
       (dp.data.contains '.' = false →
        harmonizeLexRecord zoneName r =
          some { r with content := r.content ++ "." ++ zoneName }))) := by
  have hw : harmonizeLexRecord zoneName r =
      (harmonize zoneName r.content).map (fun c => { r with content := c }) := by
    unfold harmonizeLexRecord
    rw [if_pos hr]
  constructor
  · intro h
    rw [hw]
    simp [harmonize, h]
  · intro hl hne hs hd
    rw [hw]
    constructor <;> intro hc <;> simp at hc <;>
      simp [harmonize, hl, hne, hs, hd, hc]

theorem c6_harmonization_witness :
    harmonizeLexRecord "example.com." ⟨"foo", 300, "CNAME", "a.example.com."⟩ =
      some ⟨"foo.example.com.", 300, "CNAME", "a.example.com."⟩ ∧
    harmonizeLexRecord "example.com." ⟨"foo.bar.com", 300, "NS", "a.example.com."⟩ =
      some ⟨"foo.bar.com.", 300, "NS", "a.example.com."⟩ ∧
    harmonizeLexRecord "example.com." ⟨"10 mail.example.com.", 300, "MX", "a.example.com."⟩ =
      some ⟨"10 mail.example.com.", 300, "MX", "a.example.com."⟩ :=
  ⟨((c6_harmonization "example.com." ⟨"foo", 300, "CNAME", "a.example.com."⟩
      (Or.inl rfl) 'o' ["foo"] "foo").2 (by decide) (by decide) (by decide)
      (by decide)).2 (by decide),
   ((c6_harmonization "example.com." ⟨"foo.bar.com", 300, "NS", "a.example.com."⟩
      (Or.inr (Or.inr rfl)) 'm' ["foo.bar.com"] "foo.bar.com").2 (by decide)
      (by decide) (by decide) (by decide)).1 (by decide),
   (c6_harmonization "example.com." ⟨"10 mail.example.com.", 300, "MX", "a.example.com."⟩
      (Or.inr (Or.inl rfl)) '.' [] "").1 (by decide)⟩

/-! ## Claim C7: typed errors on failed provider calls -/

/-- C7: when every operation before `op` succeeds and the provider
call for `op` returns a falsy flag, execution of the emitted sequence
performs exactly the preceding operations (never rolled back), raises
the typed error matching `op` — carrying the offending flat record
and, for an update, the identifier used — and never executes the
operations after `op`. -/
theorem c7_failed_call_raises (p : Provider) (ops1 : List Op) (op : Op)
    (ops2 : List Op) (e : ApplyError)
    (h1 : ∀ o ∈ ops1, execOp p o = none) (h2 : execOp p op = some e) :
    execOps p (ops1 ++ op :: ops2) = (ops1, some e) ∧
    (∀ r, op = Op.create r → e = ApplyError.createError r) ∧
    (∀ i r, op = Op.update i r → e = ApplyError.updateError r i) ∧
    (∀ i r, op = Op.delete i r → e = ApplyError.deleteError r) := by
  refine ⟨?_, ?_, ?_, ?_⟩
  · induction ops1 with
    | nil =>
      rw [List.nil_append, execOps, h2]
    | cons a as ih =>
      have ha := h1 a (List.mem_cons_self _ _)
      have ih2 := ih (fun o ho => h1 o (List.mem_cons_of_mem _ ho))
      rw [List.cons_append, execOps, ha]
      simp [ih2]
  · intro r hop
    subst hop
    simp only [execOp] at h2
    by_cases hb : p.createOK r = true
    · rw [if_pos hb] at h2
      cases h2
    · rw [if_neg hb] at h2
      exact (Option.some_inj.mp h2).symm
  · intro i r hop
    subst hop
    simp only [execOp] at h2
    by_cases hb : p.updateOK i r = true
    · rw [if_pos hb] at h2
      cases h2
    · rw [if_neg hb] at h2
      exact (Option.some_inj.mp h2).symm
  · intro i r hop
    subst hop
    simp only [execOp] at h2
    by_cases hb : p.deleteOK i r = true
    · rw [if_pos hb] at h2
      cases h2
    · rw [if_neg hb] at h2
      exact (Option.some_inj.mp h2).symm

/-- A provider whose create call always fails. -/
def provFailCreate : Provider :=
  ⟨fun _ => false, fun _ _ => true, fun _ _ => true⟩

theorem c7_failed_call_raises_witness :
    execOps provFailCreate
      [Op.update "id-1" recA, Op.create recB, Op.delete none recA] =
      ([Op.update "id-1" recA], some (ApplyError.createError recB)) ∧
    ApplyError.createError recB = ApplyError.createError recB :=
  ⟨(c7_failed_call_raises provFailCreate [Op.update "id-1" recA]
      (Op.create recB) [Op.delete none recA] (ApplyError.createError recB)
      (by decide) (by decide)).1,
   (c7_failed_call_raises provFailCreate [Op.update "id-1" recA]
      (Op.create recB) [Op.delete none recA] (ApplyError.createError recB)
      (by decide) (by decide)).2.1 recB rfl⟩

end OctodnsLexicon
